import Mathlib

/-!
Verification development for the `arduino_ir_decoder` repository.

The repository contains two near-duplicate Arduino sketches,
`arduino_ir_decoder.pde` and `arduino_ir_decoder.ino`.  Each consists of a
timer-interrupt pulse-capture state machine (`ISR(TIMER2_OVF_vect)`) over the
shared variables `state`, `ir_pulses[200]`, `current_ir_pulse_index`,
`number_of_pulses` and a per-pulse tick counter (`timeblock_counter` in the
.pde, `current_pulse_block_counter` in the .ino), plus an NEC protocol decoder
(`try_print_nec_details`) and a tolerance matcher (`is_pulse_match`).

Embedding conventions:
* All machine integers (`uint16_t`, `uint32_t`) are modelled as `Nat` with
  explicit `% 65536` or bounded-by-construction values where the C arithmetic
  can wrap.  The target is AVR, where `int` is 16 bits, so in `is_pulse_match`
  the mixed `uint16_t`/`int` arithmetic is performed modulo 2^16.
* The 200-element array `ir_pulses` is modelled as a total function
  `Nat → Nat` so that the (unchecked) out-of-bounds writes the C code can
  perform are observable: an index `≥ 200` is outside the real array.
* `Serial` printing is I/O and is not modelled; `try_print_nec_details`
  returns `some word` where the C function prints the word and returns 1,
  and `none` where it returns 0.
* Each ISR is modelled as a step function `Bool → Engine → Engine`, the
  `Bool` being the sampled `IR_PIN_IS_ACTIVE` value for that tick.
-/

/-- `#define PULSE_DECODING_MARGIN_OF_ERROR 150` (both variants). -/
def PULSE_DECODING_MARGIN_OF_ERROR : Nat := 150

/-- `#define STATE_IDLE 0`. -/
def STATE_IDLE : Nat := 0

/-- `#define STATE_MARK 1`. -/
def STATE_MARK : Nat := 1

/-- `#define STATE_SPACE 2`. -/
def STATE_SPACE : Nat := 2

/-- `#define STATE_FINISHED 3`. -/
def STATE_FINISHED : Nat := 3

/-- The shared mutable variables of either sketch:
`state`, `ir_pulses[200]`, `current_ir_pulse_index`, `number_of_pulses`, and
the per-pulse tick counter (named `timeblock_counter` in the .pde variant and
`current_pulse_block_counter` in the .ino variant). -/
structure Engine where
  state : Nat
  ir_pulses : Nat → Nat
  current_ir_pulse_index : Nat
  number_of_pulses : Nat
  timeblock_counter : Nat

/-- A store `ir_pulses[i] = v`.  The C code performs no bounds check, so the
model performs none either: an index `≥ 200` is a write outside the real
200-element `uint16_t` array. -/
def writePulse (b : Nat → Nat) (i v : Nat) : Nat → Nat :=
  fun j => if j = i then v else b j

/-- Initial shared state: globals zero-initialised, `setup()` sets
`state = STATE_IDLE`. -/
def initEngine : Engine :=
  { state := STATE_IDLE
    ir_pulses := fun _ => 0
    current_ir_pulse_index := 0
    number_of_pulses := 0
    timeblock_counter := 0 }

/-- `is_pulse_match` (identical in both variants):

    int is_pulse_match(uint16_t expected_value, uint16_t pulse_time_blocks){
      uint16_t actual_time = pulse_time_blocks *= 50;
      if((expected_value <= actual_time + PULSE_DECODING_MARGIN_OF_ERROR )
          && (expected_value >= actual_time - PULSE_DECODING_MARGIN_OF_ERROR ))
        return 1;
      else return 0;
    }

On AVR, `int` is 16 bits wide, so `uint16_t` operands promote to `unsigned
int` and both the multiplication and the ±150 offsets are performed modulo 2^16;
`actual_time - 150` wraps around for `actual_time < 150`. -/
def is_pulse_match (expected_value pulse_time_blocks : Nat) : Bool :=
  let actual_time := pulse_time_blocks * 50 % 65536
  if expected_value ≤ (actual_time + PULSE_DECODING_MARGIN_OF_ERROR) % 65536 ∧
      (actual_time + 65536 - PULSE_DECODING_MARGIN_OF_ERROR) % 65536 ≤ expected_value
  then true else false

/-- The `for(int i = 3; i < 66; i++)` loop of `try_print_nec_details`,
with `fuel` the number of remaining iterations (63 at entry, so the loop
stops at `i = 66`):

    for(int i = 3; i < 66; i++){
      if(i % 2){
        nec_data = nec_data >> 1;
        if(is_pulse_match(565, ir_pulses[i])){
          nec_data = nec_data | 0b10000000000000000000000000000000;
        }
      }
      else{
        if(!is_pulse_match(560, ir_pulses[i])) return 0;
      }
    }

`nec_data` is a `uint32_t`; starting from 0, `>> 1` followed by `| 2^31`
keeps it `< 2^32`, so no reduction modulo 2^32 is needed. -/
def necLoopAux (ir_pulses : Nat → Nat) : Nat → Nat → Nat → Option Nat
  | 0, _, nec_data => some nec_data
  | fuel + 1, i, nec_data =>
    if i % 2 = 1 then
      let shifted := nec_data >>> 1
      let updated :=
        if is_pulse_match 565 (ir_pulses i) then shifted ||| 0b10000000000000000000000000000000
        else shifted
      necLoopAux ir_pulses fuel (i + 1) updated
    else
      if is_pulse_match 560 (ir_pulses i) then necLoopAux ir_pulses fuel (i + 1) nec_data
      else none

/-- `try_print_nec_details` (identical logic in both variants), as a pure
function of the globals `number_of_pulses` and `ir_pulses` it reads:
returns `some w` where the C function prints the 32-bit word `w` and
returns 1, and `none` where it returns 0:

    if(number_of_pulses != 67 || !is_pulse_match(9000, ir_pulses[0])
       || !is_pulse_match(4500, ir_pulses[1]) || !is_pulse_match(560, ir_pulses[66]))
      return 0;
    uint32_t nec_data = 0;
    for(int i = 3; i < 66; i++){ ... }   -- see necLoopAux
    ...print nec_data...; return 1;  -/
def try_print_nec_details (number_of_pulses : Nat) (ir_pulses : Nat → Nat) : Option Nat :=
  if number_of_pulses ≠ 67 ∨ is_pulse_match 9000 (ir_pulses 0) = false ∨
      is_pulse_match 4500 (ir_pulses 1) = false ∨ is_pulse_match 560 (ir_pulses 66) = false
  then none
  else necLoopAux ir_pulses 63 3 0

/-- The `.pde` variant's `ISR(TIMER2_OVF_vect)` (lines 56-104).  The body runs
only while `state != STATE_FINISHED`; it first executes
`timeblock_counter += 1` (a `uint16_t` increment, hence `% 65536`) and then
dispatches on `state`.  The incremented counter value is bound here as `c`:
branches in which the C code leaves the counter at the incremented value
store `c` explicitly, and branches in which the C code then overwrites the
counter (with 1 or 0) store that final value, so each branch's record is the
handler's net effect on the shared variables.  The `TCNT2` hardware-register
write is not shared data and is not modelled. -/
def pdeStep (active : Bool) (s : Engine) : Engine :=
  if s.state ≠ STATE_FINISHED then
    let c := (s.timeblock_counter + 1) % 65536
    if s.state = STATE_IDLE then
      if active then
        { s with state := STATE_MARK
                 timeblock_counter := 1
                 ir_pulses := writePulse s.ir_pulses s.current_ir_pulse_index 1 }
      else { s with timeblock_counter := c }
    else if s.state = STATE_MARK then
      if active then
        { s with timeblock_counter := c
                 ir_pulses := writePulse s.ir_pulses s.current_ir_pulse_index c }
      else
        { s with state := STATE_SPACE
                 timeblock_counter := 1
                 current_ir_pulse_index := (s.current_ir_pulse_index + 1) % 65536
                 ir_pulses := writePulse s.ir_pulses ((s.current_ir_pulse_index + 1) % 65536) 1 }
    else if s.state = STATE_SPACE then
      if 600 ≤ c then
        { s with state := STATE_FINISHED
                 timeblock_counter := 0
                 number_of_pulses := s.current_ir_pulse_index
                 current_ir_pulse_index := 0 }
      else if active then
        { s with state := STATE_MARK
                 timeblock_counter := 1
                 current_ir_pulse_index := (s.current_ir_pulse_index + 1) % 65536
                 ir_pulses := writePulse s.ir_pulses ((s.current_ir_pulse_index + 1) % 65536) 1 }
      else
        { s with timeblock_counter := c
                 ir_pulses := writePulse s.ir_pulses s.current_ir_pulse_index c }
    else { s with timeblock_counter := c }
  else s

/-- The `.ino` variant's `ISR(TIMER2_OVF_vect)` (lines 51-102).  Its guard is

    if(state != STATE_FINISHED){ return; }

so the dispatch below it is reached only with `state == STATE_FINISHED`, where
none of the `state == STATE_IDLE / STATE_MARK / STATE_SPACE` branches apply.
The branches are nevertheless embedded faithfully.  In the `.ino` the per-
pulse counter is named `current_pulse_block_counter` (here the shared field
`timeblock_counter`), and there is no top-of-handler increment: the counter
is incremented inside the `STATE_MARK`-active and `STATE_SPACE`-inactive
branches.  On timeout the `.ino` sets `state = STATE_FINISHED`, prints from
inside the handler, and then sets `state = STATE_IDLE` before returning, so
the net shared-state effect records `STATE_IDLE`; the in-handler `Serial`
printing is I/O and is not modelled. -/
def inoStep (active : Bool) (s : Engine) : Engine :=
  if s.state ≠ STATE_FINISHED then s
  else if s.state = STATE_IDLE then
    if active then
      { s with state := STATE_MARK
               timeblock_counter := 1
               ir_pulses := writePulse s.ir_pulses s.current_ir_pulse_index 1 }
    else s
  else if s.state = STATE_MARK then
    if active then
      { s with timeblock_counter := (s.timeblock_counter + 1) % 65536
               ir_pulses := writePulse s.ir_pulses s.current_ir_pulse_index
                 ((s.timeblock_counter + 1) % 65536) }
    else
      { s with state := STATE_SPACE
               timeblock_counter := 1
               current_ir_pulse_index := (s.current_ir_pulse_index + 1) % 65536
               ir_pulses := writePulse s.ir_pulses ((s.current_ir_pulse_index + 1) % 65536) 1 }
  else if s.state = STATE_SPACE then
    if 600 ≤ s.timeblock_counter then
      { s with state := STATE_IDLE
               timeblock_counter := 0
               number_of_pulses := s.current_ir_pulse_index
               current_ir_pulse_index := 0 }
    else if active then
      { s with state := STATE_MARK
               timeblock_counter := 1
               current_ir_pulse_index := (s.current_ir_pulse_index + 1) % 65536
               ir_pulses := writePulse s.ir_pulses ((s.current_ir_pulse_index + 1) % 65536) 1 }
    else
      { s with timeblock_counter := (s.timeblock_counter + 1) % 65536
               ir_pulses := writePulse s.ir_pulses s.current_ir_pulse_index
                 ((s.timeblock_counter + 1) % 65536) }
  else s

/-- Run the `.pde` tick handler over a list of line samples. -/
def pdeRun (samples : List Bool) (s : Engine) : Engine :=
  samples.foldl (fun t b => pdeStep b t) s

/-- Run the `.ino` tick handler over a list of line samples. -/
def inoRun (samples : List Bool) (s : Engine) : Engine :=
  samples.foldl (fun t b => inoStep b t) s

/-- The components of the shared state that claim C9 compares between the two
variants: next state, buffer contents, buffer index, and pulse count (the
per-pulse counter is deliberately not compared). -/
def obsEq (a b : Engine) : Prop :=
  a.state = b.state ∧ a.ir_pulses = b.ir_pulses ∧
    a.current_ir_pulse_index = b.current_ir_pulse_index ∧
    a.number_of_pulses = b.number_of_pulses

/-- `n` alternating line samples starting with an active one:
active, inactive, active, inactive, ... -/
def altSamples (n : Nat) : List Bool :=
  (List.range n).map (fun i => i % 2 == 0)

/-- A minimal complete capture: one active sample (a 50 µs mark), one
inactive sample (opening the space), then 599 further inactive samples so
the space counter reaches the 600-tick timeout. -/
def captureSamples : List Bool :=
  true :: false :: List.replicate 599 false

/-- A synthetic NEC-shaped 67-pulse frame encoding the 32-bit value `v`,
in 50 µs ticks (the representation `ir_pulses` actually stores): leader mark
180 ticks (9000 µs), leader space 90 ticks (4500 µs), every payload/stop mark
11 ticks (550 µs, matching 560 µs within the ±150 µs margin), and payload
space at index `3 + 2*k` equal to 11 ticks (550 µs, matching the "one"
duration 565 µs) when bit `k` of `v` is set, else 34 ticks (1700 µs, matching
the "zero" duration 1690 µs). -/
def necEncode (v : Nat) : Nat → Nat := fun i =>
  if i = 0 then 180
  else if i = 1 then 90
  else if i % 2 = 1 then (if v.testBit ((i - 3) / 2) then 11 else 34)
  else 11

/-- A 67-pulse frame that is a valid NEC frame except that the payload space
at index 3 lasts 100 ticks = 5000 µs, matching neither the "one" duration
565 µs nor the "zero" duration 1690 µs. -/
def oddBadFrame : Nat → Nat := fun i =>
  if i = 0 then 180
  else if i = 1 then 90
  else if i = 3 then 100
  else 11

/-- A 67-pulse frame that is a valid NEC frame except that the payload mark
at index 2 lasts 1 tick = 50 µs, far outside 560 ± 150 µs. -/
def mark2BadFrame : Nat → Nat := fun i =>
  if i = 0 then 180
  else if i = 1 then 90
  else if i = 2 then 1
  else if i % 2 = 1 then 34
  else 11

/-- A `.pde` engine state sitting in `STATE_SPACE` with buffer index 5 and
the per-pulse counter at `c` ticks. -/
def spaceAt (c : Nat) : Engine :=
  { state := STATE_SPACE
    ir_pulses := fun _ => 0
    current_ir_pulse_index := 5
    number_of_pulses := 0
    timeblock_counter := c }

/-- An engine state sitting in `STATE_FINISHED` awaiting consumption. -/
def finishedEngine : Engine :=
  { state := STATE_FINISHED
    ir_pulses := fun _ => 0
    current_ir_pulse_index := 0
    number_of_pulses := 67
    timeblock_counter := 0 }

/-- C4 (counterexample): the claim "match iff |expected − observed| ≤ 150"
fails on the code.  At expected duration 50 µs and observed duration
2 ticks × 50 = 100 µs we have |50 − 100| = 50 ≤ 150, yet `is_pulse_match`
reports no match: `actual_time - 150` underflows the unsigned 16-bit
subtraction, producing 65486, and `50 >= 65486` is false. -/
theorem is_pulse_match_misses_within_margin :
    ((50 : Int) - 50 * 2).natAbs ≤ 150 ∧ is_pulse_match 50 2 = false := by
  decide

/-- C4 (amended): away from the unsigned-16-bit wraparounds — that is, for
expected values representable in `uint16_t` and tick counts `3 ≤ t ≤ 1307`,
so that `50*t - 150` cannot underflow and `50*t + 150` cannot overflow —
`is_pulse_match` reports a match if and only if
|expected − 50·ticks| ≤ 150 µs; in particular the ±150 boundaries match and
the ±151 boundaries do not, whenever they lie in that range. -/
theorem is_pulse_match_iff_abs_le (e t : Nat) (he : e < 65536) (h3 : 3 ≤ t)
    (h7 : t ≤ 1307) :
    is_pulse_match e t = true ↔ ((e : Int) - 50 * t).natAbs ≤ 150 := by
  simp only [is_pulse_match, PULSE_DECODING_MARGIN_OF_ERROR]
  split_ifs with h
  · simp only [true_iff]
    omega
  · simp only [Bool.false_eq_true, false_iff]
    omega

/-- C4 (witness): the amended equivalence evaluated at expected 560 µs and
11 ticks = 550 µs. -/
theorem is_pulse_match_iff_abs_le_witness :
    is_pulse_match 560 11 = true ↔ ((560 : Int) - 50 * 11).natAbs ≤ 150 :=
  is_pulse_match_iff_abs_le 560 11 (by decide) (by decide) (by decide)

/-- C6: in the `.pde` handler, a space whose tick counter reaches exactly 600
on this tick (counter 599 before the increment at the top of the handler)
triggers the transition to `STATE_FINISHED`, records
`number_of_pulses = current_ir_pulse_index` — excluding the in-progress
trailing space, which sits unconsumed at `ir_pulses[index]` — and resets the
index to 0; a counter reaching only 599 (counter 598 before the increment)
leaves the engine in `STATE_SPACE`. -/
theorem space_timeout_boundary (s t : Engine)
    (hs : s.state = STATE_SPACE) (ht : t.state = STATE_SPACE)
    (hcs : s.timeblock_counter = 599) (hct : t.timeblock_counter = 598) :
    ((pdeStep false s).state = STATE_FINISHED ∧
      (pdeStep false s).number_of_pulses = s.current_ir_pulse_index ∧
      (pdeStep false s).current_ir_pulse_index = 0) ∧
    (pdeStep false t).state = STATE_SPACE := by
  unfold pdeStep
  simp [hs, ht, hcs, hct, STATE_IDLE, STATE_MARK, STATE_SPACE, STATE_FINISHED]

/-- C6 (witness): the timeout boundary evaluated on concrete `STATE_SPACE`
engine states with counters 599 and 598. -/
theorem space_timeout_boundary_witness :
    ((pdeStep false (spaceAt 599)).state = STATE_FINISHED ∧
      (pdeStep false (spaceAt 599)).number_of_pulses =
        (spaceAt 599).current_ir_pulse_index ∧
      (pdeStep false (spaceAt 599)).current_ir_pulse_index = 0) ∧
    (pdeStep false (spaceAt 598)).state = STATE_SPACE :=
  space_timeout_boundary (spaceAt 599) (spaceAt 598) rfl rfl rfl rfl

/-- C7: while the capture state is `STATE_FINISHED`, both variants' tick
handlers mutate nothing: the `.pde` handler skips its entire body and the
`.ino` handler falls through every dispatch branch, so state, pulse buffer,
buffer index, pulse count and tick counter are all left exactly as they
were, for every line sample. -/
theorem finished_handler_is_noop (active : Bool) (s : Engine)
    (h : s.state = STATE_FINISHED) :
    pdeStep active s = s ∧ inoStep active s = s := by
  unfold pdeStep inoStep
  simp [h, STATE_IDLE, STATE_MARK, STATE_SPACE, STATE_FINISHED]

/-- C7 (witness): both handlers evaluated on a concrete `STATE_FINISHED`
state with an active line sample. -/
theorem finished_handler_is_noop_witness :
    pdeStep true finishedEngine = finishedEngine ∧
    inoStep true finishedEngine = finishedEngine :=
  finished_handler_is_noop true finishedEngine rfl

/-- C10: the `.ino` tick handler is inert.  Its guard
`if(state != STATE_FINISHED){ return; }` returns on every non-Finished state,
and in `STATE_FINISHED` none of the dispatch branches applies, so every
invocation leaves `state`, `ir_pulses`, `current_ir_pulse_index`,
`number_of_pulses` and `current_pulse_block_counter` unchanged; consequently,
starting from the initial `STATE_IDLE` state, the `.ino` capture state
machine never leaves `STATE_IDLE` on any sample sequence. -/
theorem ino_handler_inert :
    (∀ (active : Bool) (s : Engine), inoStep active s = s) ∧
    ∀ (samples : List Bool), inoRun samples initEngine = initEngine := by
  have h1 : ∀ (active : Bool) (s : Engine), inoStep active s = s := by
    intro active s
    unfold inoStep
    by_cases h : s.state = STATE_FINISHED
    · simp [h, STATE_IDLE, STATE_MARK, STATE_SPACE, STATE_FINISHED]
    · simp [h]
  have h2 : ∀ (samples : List Bool) (s : Engine), inoRun samples s = s := by
    intro samples
    induction samples with
    | nil => intro s; rfl
    | cons b rest ih =>
      intro s
      have : inoRun (b :: rest) s = inoRun rest (inoStep b s) := rfl
      rw [this, h1, ih]
  exact ⟨h1, fun samples => h2 samples initEngine⟩

/-- C9 (counterexample): the two handlers do not agree outside the
Space-timeout case.  In `STATE_IDLE` — not a timeout case — with an active
line sample, the `.pde` handler moves to `STATE_MARK` while the `.ino`
handler (whose guard returns on every non-Finished state) stays in
`STATE_IDLE`, so the two compute different next states. -/
theorem variants_differ_outside_timeout :
    initEngine.state = STATE_IDLE ∧
    (pdeStep true initEngine).state = STATE_MARK ∧
    (inoStep true initEngine).state = STATE_IDLE :=
  ⟨rfl, rfl, rfl⟩

/-- C9 (amended): because the `.ino` handler's early-return guard is
inverted, it never changes the shared data at all, so the two handlers agree
on next state, buffer contents, buffer index and pulse count only where the
`.pde` handler also leaves those four components unchanged: in
`STATE_FINISHED` on every sample, and in `STATE_IDLE` with the line
inactive (where the `.pde` handler touches only the tick counter).  On every
state/sample where the `.pde` handler acts — e.g. Idle with the line active —
the handlers disagree, not merely in the Space-timeout handling. -/
theorem variants_agree_where_pde_silent (active : Bool) (s : Engine)
    (h : s.state = STATE_FINISHED ∨ (s.state = STATE_IDLE ∧ active = false)) :
    obsEq (inoStep active s) (pdeStep active s) := by
  rcases h with h | ⟨h, ha⟩
  · unfold pdeStep inoStep
    simp [h, obsEq, STATE_IDLE, STATE_MARK, STATE_SPACE, STATE_FINISHED]
  · subst ha
    unfold pdeStep inoStep
    simp [h, obsEq, STATE_IDLE, STATE_MARK, STATE_SPACE, STATE_FINISHED]

/-- C9 (witness): agreement of the two handlers on the initial idle state
with an inactive line sample. -/
theorem variants_agree_where_pde_silent_witness :
    obsEq (inoStep false initEngine) (pdeStep false initEngine) :=
  variants_agree_where_pde_silent false initEngine (Or.inr ⟨rfl, rfl⟩)

/-- A single right shift is division by two. -/
theorem shiftRight_one_eq (d : Nat) : d >>> 1 = d / 2 := by
  rw [Nat.shiftRight_eq_div_pow, pow_one]

/-- Setting a two-power bit above a value is addition. -/
theorem lor_two_pow_of_lt (d k : Nat) (h : d < 2 ^ k) : d ||| 2 ^ k = d + 2 ^ k := by
  have h2 := Nat.mul_add_lt_is_or h 1
  rw [Nat.mul_one] at h2
  rw [Nat.lor_comm, ← h2, Nat.add_comm]

/-- Unfolding one odd-index (space pulse) iteration of the NEC loop. -/
theorem necLoopAux_succ_odd (p : Nat → Nat) (fuel i d : Nat) (h : i % 2 = 1) :
    necLoopAux p (fuel + 1) i d =
      necLoopAux p fuel (i + 1)
        (if is_pulse_match 565 (p i) then d >>> 1 ||| 2147483648 else d >>> 1) := by
  by_cases hm : is_pulse_match 565 (p i) <;> simp [necLoopAux, h, hm]

/-- Unfolding one even-index (mark pulse) iteration of the NEC loop when the
mark matches 560 µs. -/
theorem necLoopAux_succ_even (p : Nat → Nat) (fuel i d : Nat) (h : i % 2 = 0)
    (hm : is_pulse_match 560 (p i) = true) :
    necLoopAux p (fuel + 1) i d = necLoopAux p fuel (i + 1) d := by
  simp [necLoopAux, h, hm]

/-- An even-index (mark pulse) iteration whose mark fails the 560 µs match
aborts the NEC loop. -/
theorem necLoopAux_succ_even_none (p : Nat → Nat) (fuel i d : Nat) (h : i % 2 = 0)
    (hm : is_pulse_match 560 (p i) = false) :
    necLoopAux p (fuel + 1) i d = none := by
  simp [necLoopAux, h, hm]

/-- If some even index in the remaining iteration window carries a mark that
fails the 560 µs match, the NEC loop rejects. -/
theorem necLoopAux_none_of_even_mismatch (p : Nat → Nat) :
    ∀ (fuel i d j : Nat), i ≤ j → j < i + fuel → j % 2 = 0 →
      is_pulse_match 560 (p j) = false → necLoopAux p fuel i d = none := by
  intro fuel
  induction fuel with
  | zero => intro i d j hij hlt _ _; omega
  | succ fuel ih =>
    intro i d j hij hlt hj hm
    by_cases hodd : i % 2 = 1
    · rw [necLoopAux_succ_odd p fuel i d hodd]
      exact ih (i + 1) _ j (by omega) (by omega) hj hm
    · have heven : i % 2 = 0 := by omega
      by_cases hmi : is_pulse_match 560 (p i) = true
      · rw [necLoopAux_succ_even p fuel i d heven hmi]
        have hne : i ≠ j := by
          intro he
          rw [he, hm] at hmi
          exact Bool.false_ne_true hmi
        exact ih (i + 1) d j (by omega) (by omega) hj hm
      · have hmi' : is_pulse_match 560 (p i) = false := by
          revert hmi
          cases is_pulse_match 560 (p i) <;> simp
        exact necLoopAux_succ_even_none p fuel i d heven hmi'

/-- If every even index in the remaining iteration window carries a mark
matching 560 µs, the NEC loop completes: odd-index (space) pulses can never
cause a rejection. -/
theorem necLoopAux_isSome_of_evens_match (p : Nat → Nat) :
    ∀ (fuel i d : Nat), (∀ j, i ≤ j → j < i + fuel → j % 2 = 0 →
      is_pulse_match 560 (p j) = true) → (necLoopAux p fuel i d).isSome = true := by
  intro fuel
  induction fuel with
  | zero => intro i d _; rfl
  | succ fuel ih =>
    intro i d h
    by_cases hodd : i % 2 = 1
    · rw [necLoopAux_succ_odd p fuel i d hodd]
      exact ih (i + 1) _ (fun j h1 h2 h3 => h j (by omega) (by omega) h3)
    · have heven : i % 2 = 0 := by omega
      rw [necLoopAux_succ_even p fuel i d heven (h i (by omega) (by omega) heven)]
      exact ih (i + 1) d (fun j h1 h2 h3 => h j (by omega) (by omega) h3)

/-- C2 (counterexample): a finished 67-pulse frame that passes the
pulse-count, leader-mark, leader-space and stop-mark checks but whose payload
space at index 3 (100 ticks = 5000 µs) matches neither the one-space duration
565 µs nor the zero-space duration 1690 µs is NOT rejected: the decoder
accepts it and produces a decoded word (treating the unmatched space as a
zero bit). -/
theorem nec_odd_mismatch_accepted :
    is_pulse_match 565 (oddBadFrame 3) = false ∧
    is_pulse_match 1690 (oddBadFrame 3) = false ∧
    (try_print_nec_details 67 oddBadFrame).isSome = true := by
  decide

/-- C2 (amended): odd-positioned payload pulses are never validated and never
cause rejection.  A payload space matching 565 µs contributes a one bit and
any other duration — the zero duration 1690 µs or a duration matching
neither — contributes a zero bit; whenever the frame passes the pulse-count,
leader-mark, leader-space and stop-mark checks and every even payload mark
(indices 4..64) matches 560 µs, the decoder accepts the frame and produces a
decoded word, regardless of the odd-positioned payload durations. -/
theorem nec_accepts_regardless_of_odd_pulses (p : Nat → Nat)
    (h0 : is_pulse_match 9000 (p 0) = true) (h1 : is_pulse_match 4500 (p 1) = true)
    (h66 : is_pulse_match 560 (p 66) = true)
    (hev : ∀ j, 4 ≤ j → j ≤ 64 → j % 2 = 0 → is_pulse_match 560 (p j) = true) :
    (try_print_nec_details 67 p).isSome = true := by
  unfold try_print_nec_details
  rw [if_neg]
  · exact necLoopAux_isSome_of_evens_match p 63 3 0
      (fun j hj1 hj2 hj3 => hev j (by omega) (by omega) hj3)
  · intro hcon
    rcases hcon with h | h | h | h
    · exact h rfl
    · rw [h0] at h; exact absurd h (by simp)
    · rw [h1] at h; exact absurd h (by simp)
    · rw [h66] at h; exact absurd h (by simp)

/-- C2 (witness): the amended acceptance theorem applied to the concrete
frame `oddBadFrame`, whose index-3 space matches neither NEC space
duration. -/
theorem nec_accepts_regardless_of_odd_pulses_witness :
    (try_print_nec_details 67 oddBadFrame).isSome = true :=
  nec_accepts_regardless_of_odd_pulses oddBadFrame (by decide) (by decide)
    (by decide) (by decide)

/-- C3 (counterexample): the payload mark at buffer index 2 is never
validated.  `mark2BadFrame` is a 67-pulse frame whose index-2 mark lasts
1 tick = 50 µs — far outside 560 ± 150 µs — yet the decoder accepts it and
produces a decoded word, because the validation loop `for(int i = 3; ...)`
starts at index 3. -/
theorem nec_index_two_unchecked :
    is_pulse_match 560 (mark2BadFrame 2) = false ∧
    try_print_nec_details 67 mark2BadFrame = some 0 := by
  decide

/-- C3 (amended): the decoder validates the even-positioned payload marks at
buffer indices 4, 6, ..., 64 only — the payload mark at index 2 is not
checked.  If any mark among indices 4..64 fails the 560 µs match, the frame
is rejected and no decoded word is produced, whatever the pulse count. -/
theorem nec_even_mark_mismatch_rejected (n : Nat) (p : Nat → Nat) (j : Nat)
    (h4 : 4 ≤ j) (h64 : j ≤ 64) (hj : j % 2 = 0)
    (hm : is_pulse_match 560 (p j) = false) :
    try_print_nec_details n p = none := by
  unfold try_print_nec_details
  by_cases hc : n ≠ 67 ∨ is_pulse_match 9000 (p 0) = false ∨
      is_pulse_match 4500 (p 1) = false ∨ is_pulse_match 560 (p 66) = false
  · rw [if_pos hc]
  · rw [if_neg hc]
    exact necLoopAux_none_of_even_mismatch p 63 3 0 j (by omega) (by omega) hj hm

/-- C3 (witness): the amended rejection theorem applied to a concrete frame
whose index-4 mark is 0 ticks. -/
theorem nec_even_mark_mismatch_rejected_witness :
    try_print_nec_details 67 (fun i => if i = 4 then 0 else 11) = none :=
  nec_even_mark_mismatch_rejected 67 (fun i => if i = 4 then 0 else 11) 4
    (by decide) (by decide) (by decide) (by decide)

/-- `necEncode` at the odd payload index `65 - 2*n` is the space encoding
bit `31 - n` of `v`. -/
theorem necEncode_odd (v n : Nat) (hn : n ≤ 31) :
    necEncode v (65 - 2 * n) = if v.testBit (31 - n) then 11 else 34 := by
  have h0 : ¬(65 - 2 * n = 0) := by omega
  have h1 : ¬(65 - 2 * n = 1) := by omega
  have h2 : (65 - 2 * n) % 2 = 1 := by omega
  have h3 : (65 - 2 * n - 3) / 2 = 31 - n := by omega
  simp only [necEncode, h0, h1, h2, h3, if_false, if_true]

/-- `necEncode` at any even index `≥ 2` is the 11-tick (550 µs) mark. -/
theorem necEncode_even (v j : Nat) (h2 : 2 ≤ j) (hmod : j % 2 = 0) :
    necEncode v j = 11 := by
  have h0 : ¬(j = 0) := by omega
  have h1 : ¬(j = 1) := by omega
  have h3 : ¬(j % 2 = 1) := by omega
  simp only [necEncode, h0, h1, h3, if_false]

/-- The NEC loop over an encoded frame, processed from odd index `65 - 2*n`
with `2*n + 1` iterations left, shifts the accumulator down `n + 1` more
times and deposits bits `31 - n` .. `31` of `v` at the top, in order. -/
theorem necLoopAux_encode (v n : Nat) : n ≤ 31 → ∀ d, d < 2 ^ 32 →
    necLoopAux (necEncode v) (2 * n + 1) (65 - 2 * n) d =
      some (d / 2 ^ (n + 1) + v / 2 ^ (31 - n) % 2 ^ (n + 1) * 2 ^ (31 - n)) := by
  induction n with
  | zero =>
    intro _ d hd
    have h32 : (2 : Nat) ^ 32 = 4294967296 := by norm_num
    have h31 : (2 : Nat) ^ 31 = 2147483648 := by norm_num
    rw [h32] at hd
    rw [show 2 * 0 + 1 = 0 + 1 from rfl, show 65 - 2 * 0 = 65 from rfl]
    rw [necLoopAux_succ_odd _ _ _ _ (by omega)]
    have he : necEncode v 65 = if v.testBit 31 then 11 else 34 := by
      have := necEncode_odd v 0 (by omega)
      simpa using this
    by_cases hb : v.testBit 31
    · rw [he, if_pos hb, show is_pulse_match 565 11 = true from by decide, if_pos rfl]
      have hx : v / 2147483648 % 2 = 1 := by
        have ht := Nat.testBit_to_div_mod (x := v) (i := 31)
        rw [hb] at ht
        have ht2 : v / 2 ^ 31 % 2 = 1 := by simpa using ht.symm
        rw [h31] at ht2
        exact ht2
      simp only [necLoopAux]
      rw [shiftRight_one_eq, show (2147483648 : Nat) = 2 ^ 31 from by norm_num,
        lor_two_pow_of_lt (d / 2) 31 (by rw [h31]; omega)]
      simp only [Option.some.injEq]
      norm_num
      omega
    · rw [he, if_neg hb, show is_pulse_match 565 34 = false from by decide]
      rw [if_neg (by decide)]
      have hx : v / 2147483648 % 2 = 0 := by
        have ht := Nat.testBit_to_div_mod (x := v) (i := 31)
        rw [Bool.eq_false_iff.mpr hb] at ht
        have ht2 := ht.symm
        simp only [decide_eq_false_iff_not] at ht2
        rw [h31] at ht2
        omega
      simp only [necLoopAux]
      rw [shiftRight_one_eq]
      simp only [Option.some.injEq]
      norm_num
      omega
  | succ n ih =>
    intro hn d hd
    have hn30 : n ≤ 30 := by omega
    -- abbreviations: P = 2 ^ (30 - n) (weight of the bit consumed in this
    -- step), Q = 2 ^ (n + 1) (shift amount remaining after this step)
    set P : Nat := 2 ^ (30 - n) with hP
    set Q : Nat := 2 ^ (n + 1) with hQ
    have hPpos : 0 < P := Nat.pos_pow_of_pos _ (by omega)
    have hQpos : 0 < Q := Nat.pos_pow_of_pos _ (by omega)
    have hPQ : P * Q = 2 ^ 31 := by
      rw [hP, hQ, ← pow_add]
      congr 1
      omega
    have h2P : 2 * P = 2 ^ (31 - n) := by
      rw [hP, ← pow_succ']
      congr 1
      omega
    have h2Q : 2 * Q = 2 ^ (n + 1 + 1) := by
      rw [hQ, ← pow_succ']
    have h31lit : (2147483648 : Nat) = 2 ^ 31 := by norm_num
    have h32lit : (2 : Nat) ^ 32 = 4294967296 := by norm_num
    have h31lt : (2 : Nat) ^ 31 = 2147483648 := by norm_num
    -- unfold the odd step at index 63 - 2*n
    rw [show 2 * (n + 1) + 1 = (2 * n + 1 + 1) + 1 from by omega,
      show 65 - 2 * (n + 1) = 63 - 2 * n from by omega]
    rw [necLoopAux_succ_odd _ _ _ _ (by omega)]
    have he1 : necEncode v (63 - 2 * n) = if v.testBit (30 - n) then 11 else 34 := by
      have := necEncode_odd v (n + 1) (by omega)
      rw [show 65 - 2 * (n + 1) = 63 - 2 * n from by omega,
        show 31 - (n + 1) = 30 - n from by omega] at this
      exact this
    have he2 : is_pulse_match 560 (necEncode v (63 - 2 * n + 1)) = true := by
      rw [necEncode_even v (63 - 2 * n + 1) (by omega) (by omega)]
      decide
    have hbit := Nat.testBit_to_div_mod (x := v) (i := 30 - n)
    by_cases hb : v.testBit (30 - n)
    · -- bit set: the step adds 2^31 after the shift
      rw [he1, if_pos hb, show is_pulse_match 565 11 = true from by decide, if_pos rfl]
      rw [necLoopAux_succ_even _ _ _ _ (by omega) he2]
      rw [show 63 - 2 * n + 1 + 1 = 65 - 2 * n from by omega]
      rw [shiftRight_one_eq, h31lit]
      have hd2 : d / 2 + 2 ^ 31 < 2 ^ 32 := by
        rw [h31lt, h32lit]
        rw [h32lit] at hd
        omega
      rw [lor_two_pow_of_lt (d / 2) 31 (by rw [h31lt]; rw [h32lit] at hd; omega)]
      rw [ih (by omega) (d / 2 + 2 ^ 31) hd2]
      congr 1
      -- arithmetic: both sides in terms of P and Q
      have hx1 : v / P % 2 = 1 := by
        rw [hb] at hbit
        rw [hP]
        have h := hbit.symm
        simpa using h
      rw [show 31 - (n + 1) = 30 - n from by omega, ← hP, ← h2P, ← h2Q, ← hPQ]
      -- left side: (d / 2 + P * Q) / Q = d / 2 / Q + P
      rw [Nat.add_mul_div_right (d / 2) P hQpos, Nat.div_div_eq_div_mul d 2 Q]
      -- right side: v / P % (2 * Q) = v / P % 2 + 2 * (v / P / 2 % Q)
      rw [Nat.mod_mul (a := 2) (b := Q) (x := v / P), hx1,
        Nat.div_div_eq_div_mul v P 2, Nat.mul_comm P 2]
      ring
    · -- bit clear: the step only shifts
      rw [he1, if_neg hb, show is_pulse_match 565 34 = false from by decide,
        if_neg (by decide)]
      rw [necLoopAux_succ_even _ _ _ _ (by omega) he2]
      rw [show 63 - 2 * n + 1 + 1 = 65 - 2 * n from by omega]
      rw [shiftRight_one_eq]
      have hd2 : d / 2 < 2 ^ 32 := by
        rw [h32lit]
        rw [h32lit] at hd
        omega
      rw [ih (by omega) (d / 2) hd2]
      congr 1
      have hx0 : v / P % 2 = 0 := by
        rw [Bool.eq_false_iff.mpr hb] at hbit
        rw [hP]
        have h := hbit.symm
        simp only [decide_eq_false_iff_not] at h
        omega
      rw [show 31 - (n + 1) = 30 - n from by omega, ← hP, ← h2P, ← h2Q]
      rw [Nat.div_div_eq_div_mul d 2 Q]
      rw [Nat.mod_mul (a := 2) (b := Q) (x := v / P), hx0,
        Nat.div_div_eq_div_mul v P 2, Nat.mul_comm P 2]
      ring

/-- C5: bit-order round trip.  For every 32-bit value `v`, decoding the
synthetic 67-pulse NEC-shaped frame `necEncode v` — valid leader mark and
space, valid payload/stop marks, and each payload space set to the
tick-quantised one-duration (matching 565 µs) where the corresponding bit of
`v` is 1 and the tick-quantised zero-duration (matching 1690 µs) where it is
0 — yields exactly `v`, assembled least-significant-bit first: the space at
buffer index 3 becomes bit 0 and the space at index 65 becomes bit 31. -/
theorem nec_bit_order_roundtrip (v : Nat) (hv : v < 2 ^ 32) :
    try_print_nec_details 67 (necEncode v) = some v := by
  unfold try_print_nec_details
  rw [if_neg]
  · have h := necLoopAux_encode v 31 (by omega) 0 (by norm_num)
    rw [show 65 - 2 * 31 = 3 from by norm_num, show 2 * 31 + 1 = 63 from by norm_num] at h
    rw [h]
    have hv4 : v < 4294967296 := by norm_num at hv; omega
    norm_num
    exact hv4
  · intro hcon
    have e0 : necEncode v 0 = 180 := rfl
    have e1 : necEncode v 1 = 90 := rfl
    have e66 : necEncode v 66 = 11 := rfl
    rcases hcon with h | h | h | h
    · exact h rfl
    · rw [e0] at h; exact absurd h (by decide)
    · rw [e1] at h; exact absurd h (by decide)
    · rw [e66] at h; exact absurd h (by decide)

/-- C5 (witness): the round trip evaluated at the spec's example value
`0x00FF00FF`. -/
theorem nec_bit_order_roundtrip_witness :
    try_print_nec_details 67 (necEncode 0x00FF00FF) = some 0x00FF00FF :=
  nec_bit_order_roundtrip 0x00FF00FF (by norm_num)

/-- Inductive invariant of the `.pde` capture state machine: the buffer index
has even parity in `STATE_IDLE` and `STATE_MARK` and odd parity in
`STATE_SPACE` (every state transition Idle→Mark→Space→Mark→... increments the
index by one except the first), and in `STATE_FINISHED` the recorded pulse
count is at least 1. -/
def engineInv (s : Engine) : Prop :=
  (s.state = STATE_IDLE → s.current_ir_pulse_index % 2 = 0) ∧
  (s.state = STATE_MARK → s.current_ir_pulse_index % 2 = 0) ∧
  (s.state = STATE_SPACE → s.current_ir_pulse_index % 2 = 1) ∧
  (s.state = STATE_FINISHED → 1 ≤ s.number_of_pulses)

/-- The invariant holds initially. -/
theorem engineInv_init : engineInv initEngine := by
  refine ⟨fun _ => rfl, fun h => ?_, fun h => ?_, fun h => ?_⟩ <;>
    simp [initEngine, STATE_IDLE, STATE_MARK, STATE_SPACE, STATE_FINISHED] at h

/-- The invariant is preserved by every `.pde` tick. -/
theorem engineInv_step (b : Bool) (s : Engine) (h : engineInv s) :
    engineInv (pdeStep b s) := by
  obtain ⟨hI, hM, hS, hF⟩ := h
  unfold pdeStep
  split_ifs with g1 g2 g3 g4 g5 g6 g7 <;>
    simp_all [engineInv, STATE_IDLE, STATE_MARK, STATE_SPACE, STATE_FINISHED] <;>
    first
      | omega
      | (split_ifs with h8 <;> simp_all <;> omega)

/-- The invariant is preserved by every `.pde` run. -/
theorem engineInv_run (L : List Bool) (s : Engine) (h : engineInv s) :
    engineInv (pdeRun L s) := by
  induction L generalizing s with
  | nil => exact h
  | cons b rest ih =>
    have hstep : pdeRun (b :: rest) s = pdeRun rest (pdeStep b s) := rfl
    rw [hstep]
    exact ih _ (engineInv_step b s h)

/-- C8: every completed frame is reported non-empty, and a decoded word is
produced only for frames the NEC decoder validates.  First part: on every
sample sequence from the initial state, whenever the `.pde` engine reaches
`STATE_FINISHED`, the recorded `number_of_pulses` is at least 1 (the index is
odd in `STATE_SPACE`, the only state from which frames finish).  Second
part: `try_print_nec_details` yields a word only when the frame has exactly
67 pulses and the leader-mark (9000 µs), leader-space (4500 µs) and stop-mark
(560 µs) checks all pass. -/
theorem report_nonempty_and_decoded_only_if_nec :
    (∀ samples : List Bool, (pdeRun samples initEngine).state = STATE_FINISHED →
      1 ≤ (pdeRun samples initEngine).number_of_pulses) ∧
    (∀ (n : Nat) (p : Nat → Nat) (w : Nat), try_print_nec_details n p = some w →
      n = 67 ∧ is_pulse_match 9000 (p 0) = true ∧ is_pulse_match 4500 (p 1) = true ∧
        is_pulse_match 560 (p 66) = true) := by
  constructor
  · intro samples hf
    exact (engineInv_run samples initEngine engineInv_init).2.2.2 hf
  · intro n p w h
    unfold try_print_nec_details at h
    by_cases hc : n ≠ 67 ∨ is_pulse_match 9000 (p 0) = false ∨
        is_pulse_match 4500 (p 1) = false ∨ is_pulse_match 560 (p 66) = false
    · rw [if_pos hc] at h
      exact absurd h (by simp)
    · push_neg at hc
      obtain ⟨h1, h2, h3, h4⟩ := hc
      exact ⟨h1, by simpa using h2, by simpa using h3, by simpa using h4⟩

/-- Running `k` consecutive inactive samples from a `STATE_SPACE` state whose
counter reaches the 600-tick timeout exactly at the `k`-th sample finishes
the frame, recording the pulse count from the buffer index held at entry. -/
theorem space_timeout_run : ∀ (k : Nat) (s : Engine), s.state = STATE_SPACE →
    s.timeblock_counter + k = 600 → 1 ≤ k →
    (pdeRun (List.replicate k false) s).state = STATE_FINISHED ∧
    (pdeRun (List.replicate k false) s).number_of_pulses =
      s.current_ir_pulse_index := by
  intro k
  induction k with
  | zero => intro s _ _ h1; omega
  | succ k ih =>
    intro s hs hc _
    have hrun : pdeRun (List.replicate (k + 1) false) s
        = pdeRun (List.replicate k false) (pdeStep false s) := rfl
    rw [hrun]
    by_cases hk : k = 0
    · subst hk
      have h599 : s.timeblock_counter = 599 := by omega
      have hstep : pdeStep false s =
          { s with state := STATE_FINISHED
                   timeblock_counter := 0
                   number_of_pulses := s.current_ir_pulse_index
                   current_ir_pulse_index := 0 } := by
        unfold pdeStep
        simp [hs, h599, STATE_IDLE, STATE_MARK, STATE_SPACE, STATE_FINISHED]
      rw [hstep]
      exact ⟨rfl, rfl⟩
    · have hlt : ¬ 600 ≤ (s.timeblock_counter + 1) % 65536 := by omega
      have hstep : pdeStep false s =
          { s with timeblock_counter := (s.timeblock_counter + 1) % 65536
                   ir_pulses := writePulse s.ir_pulses s.current_ir_pulse_index
                     ((s.timeblock_counter + 1) % 65536) } := by
        unfold pdeStep
        simp [hs, hlt, STATE_IDLE, STATE_MARK, STATE_SPACE, STATE_FINISHED]
      rw [hstep]
      exact ih _ (by simpa using hs) (by simp; omega) (by omega)

/-- Unfolding two leading ticks of a `.pde` run. -/
theorem pdeRun_cons_cons (a b : Bool) (L : List Bool) (s : Engine) :
    pdeRun (a :: b :: L) s = pdeRun L (pdeStep b (pdeStep a s)) := rfl

/-- The minimal capture `captureSamples` drives the `.pde` engine from the
initial state to `STATE_FINISHED`. -/
theorem captureSamples_finished :
    (pdeRun captureSamples initEngine).state = STATE_FINISHED := by
  have h1 : captureSamples = true :: false :: List.replicate 599 false := rfl
  rw [h1, pdeRun_cons_cons]
  exact (space_timeout_run 599 (pdeStep false (pdeStep true initEngine))
    (by decide) (by decide) (by decide)).1

/-- C8 (witness): the non-emptiness guarantee evaluated on the concrete
minimal capture (one 50 µs mark followed by the 600-tick timeout), which
finishes with exactly one recorded pulse. -/
theorem report_nonempty_witness :
    1 ≤ (pdeRun captureSamples initEngine).number_of_pulses :=
  report_nonempty_and_decoded_only_if_nec.1 captureSamples captureSamples_finished

set_option maxRecDepth 4000 in
/-- C1: the capture engine performs no buffer-capacity check at all.  Feeding
the `.pde` tick handler 201 alternating line samples from the initial state
drives `current_ir_pulse_index` to 200 and stores a pulse at `ir_pulses[200]`
— one past the last valid index (199) of the 200-element array — while the
engine carries on capturing in `STATE_MARK`: no abort, no discard, no return
to `STATE_IDLE` ever happens on overflow. -/
theorem overflow_writes_out_of_bounds :
    (pdeRun (altSamples 201) initEngine).current_ir_pulse_index = 200 ∧
    (pdeRun (altSamples 201) initEngine).ir_pulses 200 = 1 ∧
    (pdeRun (altSamples 201) initEngine).state = STATE_MARK ∧
    initEngine.ir_pulses 200 = 0 := by
  decide
